import Mathlib

/-!
# mediainfo: classification and validation of a media report

A shallow embedding of `mediainfo.go`.

* Go strings are Lean strings; the zero value of a Go string is `""`, so every field of a
  struct defaults to it.
* A Go slice is a list, and `append(s, t)` is `s ++ [t]`.
* A run-time panic is the `error` side of `Except Panic`.
* Go strings are byte strings and Lean strings are character strings. The program only
  compares strings with literals and tests suffixes and prefixes that are ASCII literals, and
  on UTF-8 text a byte string ends (or begins) with such a literal exactly when the
  character string does.
* The operating system and `encoding/json` are not part of the program: they are the
  fields of a `Host`, and `GetMediaInfo` records every subprocess it spawns.
-/

namespace Mediainfo

/-! ## Data model -/

/-- The anonymous struct of the field `Extra` of a `Track`. -/
structure TrackExtra where
  OverallBitRatePrecisionMin : String := ""
  OverallBitRatePrecisionMax : String := ""
deriving DecidableEq, Repr

/-- The struct `Track`. The Go field `Type` is written `Type_` (`Type` is reserved). -/
structure Track where
  Type_ : String := ""
  ID : String := ""
  VideoCount : String := ""
  AudioCount : String := ""
  FileExtension : String := ""
  Format : String := ""
  FileSize : String := ""
  Duration : String := ""
  OverallBitRateMode : String := ""
  OverallBitRate : String := ""
  FrameRate : String := ""
  FrameCount : String := ""
  FileModifiedDate : String := ""
  FileModifiedDateLocal : String := ""
  Extra : TrackExtra := {}
  StreamOrder : String := ""
  MenuID : String := ""
  FormatProfile : String := ""
  FormatLevel : String := ""
  FormatSettingsCABAC : String := ""
  FormatSettingsRefFrames : String := ""
  CodecID : String := ""
  BitRateMode : String := ""
  BitRateNominal : String := ""
  BitRateMaximum : String := ""
  Width : String := ""
  Height : String := ""
  StoredHeight : String := ""
  SampledWidth : String := ""
  SampledHeight : String := ""
  PixelAspectRatio : String := ""
  DisplayAspectRatio : String := ""
  ColorSpace : String := ""
  ChromaSubsampling : String := ""
  BitDepth : String := ""
  ScanType : String := ""
  Delay : String := ""
  EncodedLibrary : String := ""
  EncodedLibraryName : String := ""
  EncodedLibraryVersion : String := ""
  EncodedLibrarySettings : String := ""
  BufferSize : String := ""
  ColourDescriptionPresent : String := ""
  ColourDescriptionPresentSource : String := ""
  ColourRange : String := ""
  ColourRangeSource : String := ""
  ColourPrimaries : String := ""
  ColourPrimariesSource : String := ""
  TransferCharacteristics : String := ""
  TransferCharacteristicsSource : String := ""
  MatrixCoefficients : String := ""
  MatrixCoefficientsSource : String := ""
  FormatVersion : String := ""
  FormatAdditionalFeatures : String := ""
  MuxingMode : String := ""
  Channels : String := ""
  ChannelPositions : String := ""
  ChannelLayout : String := ""
  SamplesPerFrame : String := ""
  SamplingRate : String := ""
  SamplingCount : String := ""
  CompressionMode : String := ""
  DelaySource : String := ""
  Language : String := ""
deriving DecidableEq, Repr

/-- The anonymous struct of the field `Media` of a `MediaInfoJson`. -/
structure MediaInfoJsonMedia where
  Track : List Track := []
deriving DecidableEq, Repr

/-- The struct `MediaInfoJson`. -/
structure MediaInfoJson where
  Media : MediaInfoJsonMedia := {}
deriving DecidableEq, Repr

/-- The struct `MediaInfo`; the zero value has three nil slices. -/
structure MediaInfo where
  General : List Track := []
  Video : List Track := []
  Audio : List Track := []
deriving DecidableEq, Repr

/-! ## Errors and panics -/

/-- A Go `error` value, observed through the text its method `Error()` returns. -/
structure GoError where
  Error : String
deriving DecidableEq, Repr

/-- A Go run-time panic: `index out of range [index] with length length`. -/
inductive Panic where
  | indexOutOfRange (index length : Nat)
deriving DecidableEq, Repr

/-- The slice index expression `s[i]`: it panics when `i` is not below `len(s)`. -/
def index (s : List Track) (i : Nat) : Except Panic Track :=
  match s.get? i with
  | some t => .ok t
  | none => .error (.indexOutOfRange i s.length)

/-! ## Library functions of `strings` -/

/-- Go `strings.HasSuffix`: `len(s) >= len(suffix) && s[len(s)-len(suffix):] == suffix`. -/
def HasSuffix (s suffix : String) : Bool :=
  decide (s.length ≥ suffix.length) && (s.data.drop (s.length - suffix.length) == suffix.data)

/-- Go `strings.HasPrefix`: `len(s) >= len(prefix) && s[:len(prefix)] == prefix`. -/
def HasPrefix (s pre : String) : Bool :=
  decide (s.length ≥ pre.length) && (s.data.take pre.length == pre.data)

/-! ## The host: subprocesses and the JSON decoder -/

/-- What the program asks of its environment. A command is its argument vector, the binary
first. `Run argv` is the error of `exec.Command(argv...).Run()` (`none` for `nil`),
`Output argv` the pair returned by `exec.Command(argv...).Output()`, and `Unmarshal out` the
value `json.Unmarshal(out, &info)` leaves in a zero `info` together with its error. -/
structure Host where
  Run : List String → Option GoError
  Output : List String → List UInt8 × Option GoError
  Unmarshal : List UInt8 → MediaInfoJson × Option GoError

/-! ## The program -/

/-- The function `IsInstalled`; `mediainfoBinary` is the value of the flag `-mediainfo-bin`. -/
def IsInstalled (host : Host) (mediainfoBinary : String) : Bool :=
  match host.Run [mediainfoBinary] with
  | some err =>
    if HasSuffix err.Error "no such file or directory" ||
        HasSuffix err.Error "executable file not found in %PATH%" ||
        HasSuffix err.Error "executable file not found in $PATH" then
      false
    else if HasPrefix err.Error "exit status 255" then
      true
    else
      true
  | none => true

/-- The method `MediaInfo.IsMedia`. The operator `&&` evaluates its right operand only when
the left one is true, and each operand first indexes its slice at 0. -/
def IsMedia (info : MediaInfo) : Except Panic Bool := do
  let v ← index info.Video 0
  if v.Duration != "" then
    let a ← index info.Audio 0
    pure (a.Duration != "")
  else
    pure false

/-- One iteration of the loop `for _, t := range info.Media.Track` of `GetMediaInfo`:
three independent `if` statements, each appending `t` to one slice. -/
def classifyStep (mediaInfo : MediaInfo) (t : Track) : MediaInfo :=
  let mediaInfo :=
    if t.Type_ == "Video" then { mediaInfo with Video := mediaInfo.Video ++ [t] } else mediaInfo
  let mediaInfo :=
    if t.Type_ == "Audio" then { mediaInfo with Audio := mediaInfo.Audio ++ [t] } else mediaInfo
  let mediaInfo :=
    if t.Type_ == "General" then { mediaInfo with General := mediaInfo.General ++ [t] }
    else mediaInfo
  mediaInfo

/-- The classification loop of `GetMediaInfo`, run from the state `mediaInfo`. -/
def classifyFrom (mediaInfo : MediaInfo) (tracks : List Track) : MediaInfo :=
  tracks.foldl classifyStep mediaInfo

/-- The classification loop of `GetMediaInfo`, run from `mediaInfo := MediaInfo{}`. -/
def classify (tracks : List Track) : MediaInfo :=
  classifyFrom {} tracks

/-- The error `fmt.Errorf("Must install mediainfo")`. -/
def errMustInstall : GoError := ⟨"Must install mediainfo"⟩

/-- The error `errors.New("The media file is invalid: no duration")`. -/
def errInvalidMedia : GoError := ⟨"The media file is invalid: no duration"⟩

/-- A run of `GetMediaInfo`: the commands it spawned, in order, and either the pair it
returned or the panic that ended it. -/
structure Call where
  spawned : List (List String)
  ret : Except Panic (MediaInfo × Option GoError)

/-- The function `GetMediaInfo`. -/
def GetMediaInfo (host : Host) (mediainfoBinary fname outputType : String) : Call :=
  let _ := outputType
  let mediaInfo : MediaInfo := {}
  let probe := [mediainfoBinary]
  if !IsInstalled host mediainfoBinary then
    { spawned := [probe], ret := .ok (mediaInfo, some errMustInstall) }
  else
    let argv := [mediainfoBinary, "--Output=JSON", "-f", fname]
    match host.Output argv with
    | (_, some err) => { spawned := [probe, argv], ret := .ok (mediaInfo, some err) }
    | (out, none) =>
      match host.Unmarshal out with
      | (_, some err) => { spawned := [probe, argv], ret := .ok (mediaInfo, some err) }
      | (info, none) =>
        let mediaInfo := classifyFrom mediaInfo info.Media.Track
        { spawned := [probe, argv],
          ret := (IsMedia mediaInfo).map fun ok =>
            if !ok then (mediaInfo, some errInvalidMedia) else (mediaInfo, none) }

/-! ## Definitions used to state the properties -/

/-- The tracks of `tracks` whose discriminator is `ty`, in their original order. -/
def ofType (ty : String) (tracks : List Track) : List Track :=
  tracks.filter fun t => t.Type_ == ty

/-! ## Sample hosts -/

/-- A host without the binary: every command fails to start. -/
def hostAbsent : Host where
  Run := fun _ => some ⟨"fork/exec /nowhere/mediainfo: no such file or directory"⟩
  Output := fun _ => ([], some ⟨"fork/exec /nowhere/mediainfo: no such file or directory"⟩)
  Unmarshal := fun _ => ({}, none)

/-- A host with the binary (the probe exits with status 255) on which the analysis of any
file fails with the error `e`. -/
def hostFailing (e : GoError) : Host where
  Run := fun _ => some ⟨"exit status 255"⟩
  Output := fun _ => ([], some e)
  Unmarshal := fun _ => ({}, none)

/-- A host with the binary on which the analysis succeeds and its output does not decode:
`json.Unmarshal` fails with the error `e`. -/
def hostGarbled (e : GoError) : Host where
  Run := fun _ => some ⟨"exit status 255"⟩
  Output := fun _ => ([], none)
  Unmarshal := fun _ => ({}, some e)

/-- A host with the binary on which the analysis succeeds and its output decodes to a
report with the tracks `tracks`. -/
def hostReporting (tracks : List Track) : Host where
  Run := fun _ => some ⟨"exit status 255"⟩
  Output := fun _ => ([], none)
  Unmarshal := fun _ => ({ Media := { Track := tracks } }, none)

/-! ## Classification: the loop is three filters -/

theorem classifyStep_eq (m : MediaInfo) (t : Track) :
    classifyStep m t =
      { General := m.General ++ ofType "General" [t],
        Video := m.Video ++ ofType "Video" [t],
        Audio := m.Audio ++ ofType "Audio" [t] } := by
  by_cases hv : t.Type_ = "Video"
  · simp [classifyStep, ofType, hv, List.filter_cons]
  · by_cases ha : t.Type_ = "Audio"
    · simp [classifyStep, ofType, ha, List.filter_cons]
    · by_cases hg : t.Type_ = "General"
      · simp [classifyStep, ofType, hg, List.filter_cons]
      · simp [classifyStep, ofType, hv, ha, hg, List.filter_cons]

theorem classifyFrom_eq (tracks : List Track) (m : MediaInfo) :
    classifyFrom m tracks =
      { General := m.General ++ ofType "General" tracks,
        Video := m.Video ++ ofType "Video" tracks,
        Audio := m.Audio ++ ofType "Audio" tracks } := by
  induction tracks generalizing m with
  | nil => simp [classifyFrom, ofType]
  | cons t ts ih =>
    have hstep : classifyFrom m (t :: ts) = classifyFrom (classifyStep m t) ts := rfl
    have hsplit : ∀ ty, ofType ty (t :: ts) = ofType ty [t] ++ ofType ty ts := by
      intro ty
      simp only [ofType]
      rw [← List.filter_append]
      rfl
    rw [hstep, ih, classifyStep_eq]
    simp only [hsplit, List.append_assoc]

theorem classify_eq (tracks : List Track) :
    classify tracks =
      { General := ofType "General" tracks,
        Video := ofType "Video" tracks,
        Audio := ofType "Audio" tracks } := by
  simp [classify, classifyFrom_eq]

theorem mem_ofType {ty : String} {tracks : List Track} {t : Track} :
    t ∈ ofType ty tracks ↔ t ∈ tracks ∧ t.Type_ = ty := by
  simp [ofType, List.mem_filter]

theorem length_ofType_add (tracks : List Track) :
    (ofType "General" tracks).length + (ofType "Video" tracks).length +
        (ofType "Audio" tracks).length +
        (tracks.filter fun t =>
          !(t.Type_ == "General" || t.Type_ == "Video" || t.Type_ == "Audio")).length =
      tracks.length := by
  induction tracks with
  | nil => simp [ofType]
  | cons t ts ih =>
    simp only [ofType] at ih ⊢
    by_cases hg : t.Type_ = "General"
    · simp [hg, List.filter_cons] at ih ⊢
      omega
    · by_cases hv : t.Type_ = "Video"
      · simp [hv, List.filter_cons] at ih ⊢
        omega
      · by_cases ha : t.Type_ = "Audio"
        · simp [ha, List.filter_cons] at ih ⊢
          omega
        · simp [hg, hv, ha, List.filter_cons] at ih ⊢
          omega

/-- C1: the classification loop of `GetMediaInfo` yields exactly the three sub-lists of the
track list selected by the discriminators "General", "Video" and "Audio", each in the
original relative order; so every track of a sequence has that sequence's discriminator, no
track lies in two sequences, and a track of any other type lies in none. -/
theorem classify_partition (tracks : List Track) :
    classify tracks =
        { General := tracks.filter fun t => t.Type_ == "General",
          Video := tracks.filter fun t => t.Type_ == "Video",
          Audio := tracks.filter fun t => t.Type_ == "Audio" } ∧
      ((classify tracks).General.Sublist tracks ∧ (classify tracks).Video.Sublist tracks ∧
        (classify tracks).Audio.Sublist tracks) ∧
      (∀ t, (t ∈ (classify tracks).General → t.Type_ = "General") ∧
        (t ∈ (classify tracks).Video → t.Type_ = "Video") ∧
        (t ∈ (classify tracks).Audio → t.Type_ = "Audio")) ∧
      (∀ t, ¬(t ∈ (classify tracks).General ∧ t ∈ (classify tracks).Video) ∧
        ¬(t ∈ (classify tracks).General ∧ t ∈ (classify tracks).Audio) ∧
        ¬(t ∈ (classify tracks).Video ∧ t ∈ (classify tracks).Audio)) ∧
      (∀ t, t.Type_ ≠ "General" → t.Type_ ≠ "Video" → t.Type_ ≠ "Audio" →
        t ∉ (classify tracks).General ∧ t ∉ (classify tracks).Video ∧
          t ∉ (classify tracks).Audio) := by
  rw [classify_eq]
  refine ⟨rfl, ⟨List.filter_sublist _, List.filter_sublist _, List.filter_sublist _⟩, ?_, ?_, ?_⟩
  · intro t
    exact ⟨fun h => (mem_ofType.1 h).2, fun h => (mem_ofType.1 h).2, fun h => (mem_ofType.1 h).2⟩
  · intro t
    refine ⟨?_, ?_, ?_⟩ <;> rintro ⟨h₁, h₂⟩ <;>
      exact absurd ((mem_ofType.1 h₁).2.symm.trans (mem_ofType.1 h₂).2) (by decide)
  · intro t hg hv ha
    exact ⟨fun h => hg (mem_ofType.1 h).2, fun h => hv (mem_ofType.1 h).2,
      fun h => ha (mem_ofType.1 h).2⟩

/-- C4: for a list of N tracks the three sequences built by the classification loop have
at most N elements in total, and exactly N if and only if every track has one of the
discriminators "General", "Video", "Audio". -/
theorem classify_length (tracks : List Track) :
    (classify tracks).General.length + (classify tracks).Video.length +
          (classify tracks).Audio.length ≤ tracks.length ∧
      ((classify tracks).General.length + (classify tracks).Video.length +
            (classify tracks).Audio.length = tracks.length ↔
        ∀ t ∈ tracks, t.Type_ = "General" ∨ t.Type_ = "Video" ∨ t.Type_ = "Audio") := by
  have hsum := length_ofType_add tracks
  rw [classify_eq]
  refine ⟨by simp only; omega, ?_⟩
  have hzero : (tracks.filter fun t =>
        !(t.Type_ == "General" || t.Type_ == "Video" || t.Type_ == "Audio")).length = 0 ↔
      ∀ t ∈ tracks, t.Type_ = "General" ∨ t.Type_ = "Video" ∨ t.Type_ = "Audio" := by
    rw [List.length_eq_zero, List.filter_eq_nil_iff]
    constructor
    · intro h t ht
      have := h t ht
      simp at this ⊢
      tauto
    · intro h t ht
      have := h t ht
      simp at this ⊢
      tauto
  rw [← hzero]
  simp only
  omega

/-! ## Validation: `IsMedia` -/

theorem IsMedia_nil_video (g a : List Track) :
    IsMedia { General := g, Video := [], Audio := a } = .error (.indexOutOfRange 0 0) := rfl

theorem IsMedia_cons_video (g vs a : List Track) (v : Track) :
    IsMedia { General := g, Video := v :: vs, Audio := a } =
      if v.Duration = "" then .ok false
      else match a with
        | [] => .error (.indexOutOfRange 0 0)
        | x :: _ => .ok (x.Duration != "") := by
  by_cases hv : v.Duration = ""
  · simp [IsMedia, index, hv, bind, Except.bind, pure, Except.pure]
  · cases a <;> simp [IsMedia, index, hv, bind, Except.bind, pure, Except.pure]

/-- C2: `IsMedia` returns true exactly when the Video and the Audio sequence both have at
least one element and the first element of each has a non-empty `Duration`. -/
theorem IsMedia_true_iff (m : MediaInfo) :
    IsMedia m = .ok true ↔
      ∃ (hv : m.Video.length ≥ 1) (ha : m.Audio.length ≥ 1),
        (m.Video.get ⟨0, hv⟩).Duration ≠ "" ∧ (m.Audio.get ⟨0, ha⟩).Duration ≠ "" := by
  obtain ⟨g, v, a⟩ := m
  cases v with
  | nil => simp [IsMedia_nil_video]
  | cons v vs =>
    rw [IsMedia_cons_video]
    by_cases hv : v.Duration = ""
    · simp [hv]
    · cases a with
      | nil => simp [hv]
      | cons x xs => simp [hv]

/-- C10: `IsMedia` ends in an index-out-of-range panic exactly when the Video sequence is
empty, or it is non-empty with a non-empty first `Duration` while the Audio sequence is
empty; in every other case it returns a boolean, and for a non-empty Video sequence whose
first `Duration` is empty together with an empty Audio sequence it returns false. -/
theorem IsMedia_panics_iff (m : MediaInfo) :
    ((∃ p, IsMedia m = .error p) ↔
        m.Video = [] ∨ ∃ v vs, m.Video = v :: vs ∧ v.Duration ≠ "" ∧ m.Audio = []) ∧
      (¬(m.Video = [] ∨ ∃ v vs, m.Video = v :: vs ∧ v.Duration ≠ "" ∧ m.Audio = []) →
        ∃ b, IsMedia m = .ok b) ∧
      (∀ v vs, m.Video = v :: vs → v.Duration = "" → m.Audio = [] → IsMedia m = .ok false) := by
  obtain ⟨g, v, a⟩ := m
  cases v with
  | nil => simp [IsMedia_nil_video]
  | cons v vs =>
    simp only [IsMedia_cons_video]
    by_cases hv : v.Duration = ""
    · simp [hv]
    · cases a with
      | nil => simp [hv]
      | cons x xs => simp [hv]

/-- C9 as amended: `IsMedia` indexes `Video[0]` unconditionally and `Audio[0]` only when the
first Video `Duration` is non-empty; so it panics with index 0 out of range for length 0
whenever the Video sequence is empty, or the Audio sequence is empty and the first Video
track has a non-empty `Duration`. -/
theorem IsMedia_panics_of_empty (m : MediaInfo)
    (h : m.Video = [] ∨ (m.Audio = [] ∧ ∃ v vs, m.Video = v :: vs ∧ v.Duration ≠ "")) :
    IsMedia m = .error (.indexOutOfRange 0 0) := by
  obtain ⟨g, v, a⟩ := m
  rcases h with h | ⟨ha, w, ws, hw, hd⟩
  · simp only at h
    subst h
    rfl
  · simp only at ha hw
    subst ha hw
    rw [IsMedia_cons_video]
    simp [hd]

/-- An instance of the amended C9: one Video track of `Duration` "10.0" and no Audio track. -/
theorem IsMedia_panics_of_empty_witness :
    IsMedia { Video := [{ Type_ := "Video", Duration := "10.0" }] } =
      .error (.indexOutOfRange 0 0) :=
  IsMedia_panics_of_empty _ (Or.inr ⟨rfl, _, _, rfl, by decide⟩)

/-- C9 as stated fails: with an empty Audio sequence and a first Video track whose
`Duration` is empty, `IsMedia` returns false and does not panic. -/
theorem IsMedia_empty_audio_no_panic :
    ({ Video := [{ Type_ := "Video" }] } : MediaInfo).Audio = [] ∧
      IsMedia { Video := [{ Type_ := "Video" }] } = .ok false ∧
      ¬((({ Video := [{ Type_ := "Video" }] } : MediaInfo).Video = [] ∨
          ({ Video := [{ Type_ := "Video" }] } : MediaInfo).Audio = []) →
        ∃ p, IsMedia { Video := [{ Type_ := "Video" }] } = .error p) := by
  refine ⟨rfl, rfl, ?_⟩
  intro h
  obtain ⟨p, hp⟩ := h (Or.inr rfl)
  have hok : IsMedia { Video := [{ Type_ := "Video" }] } = .ok false := rfl
  rw [hok] at hp
  cases hp

/-! ## The availability probe: `IsInstalled` -/

theorem HasSuffix_iff (s suffix : String) :
    HasSuffix s suffix = true ↔ ∃ p : String, s = p ++ suffix := by
  obtain ⟨s⟩ := s
  obtain ⟨t⟩ := suffix
  simp only [HasSuffix, String.length, Bool.and_eq_true, decide_eq_true_eq, beq_iff_eq]
  constructor
  · rintro ⟨_, h⟩
    refine ⟨⟨s.take (s.length - t.length)⟩, ?_⟩
    apply String.ext
    simp only [String.data_append]
    have hsplit := List.take_append_drop (s.length - t.length) s
    rw [h] at hsplit
    exact hsplit.symm
  · rintro ⟨⟨p⟩, h⟩
    have hs : s = p ++ t := by
      have := congrArg String.data h
      simpa [String.data_append] using this
    subst hs
    simp

theorem HasPrefix_iff (s pre : String) :
    HasPrefix s pre = true ↔ ∃ r : String, s = pre ++ r := by
  obtain ⟨s⟩ := s
  obtain ⟨t⟩ := pre
  simp only [HasPrefix, String.length, Bool.and_eq_true, decide_eq_true_eq, beq_iff_eq]
  constructor
  · rintro ⟨_, h⟩
    refine ⟨⟨s.drop t.length⟩, ?_⟩
    apply String.ext
    simp only [String.data_append]
    have hsplit := List.take_append_drop t.length s
    rw [h] at hsplit
    exact hsplit.symm
  · rintro ⟨⟨r⟩, h⟩
    have hs : s = t ++ r := by
      have := congrArg String.data h
      simpa [String.data_append] using this
    subst hs
    simp

/-- C5: `IsInstalled` returns false exactly when running the binary with no arguments fails
with an error whose text ends with "no such file or directory", "executable file not found
in %PATH%" or "executable file not found in $PATH"; it returns true on success and on every
other failure, among them every text that begins "exit status 255" and has none of the three
endings. -/
theorem IsInstalled_false_iff (host : Host) (mediainfoBinary : String) :
    (IsInstalled host mediainfoBinary = false ↔
        ∃ e, host.Run [mediainfoBinary] = some e ∧
          ((∃ p : String, e.Error = p ++ "no such file or directory") ∨
            (∃ p : String, e.Error = p ++ "executable file not found in %PATH%") ∨
            (∃ p : String, e.Error = p ++ "executable file not found in $PATH"))) ∧
      (host.Run [mediainfoBinary] = none → IsInstalled host mediainfoBinary = true) ∧
      (∀ e, host.Run [mediainfoBinary] = some e →
        ¬((∃ p : String, e.Error = p ++ "no such file or directory") ∨
            (∃ p : String, e.Error = p ++ "executable file not found in %PATH%") ∨
            (∃ p : String, e.Error = p ++ "executable file not found in $PATH")) →
        IsInstalled host mediainfoBinary = true) ∧
      (∀ e, host.Run [mediainfoBinary] = some e →
        (∃ r : String, e.Error = "exit status 255" ++ r) →
        ¬((∃ p : String, e.Error = p ++ "no such file or directory") ∨
            (∃ p : String, e.Error = p ++ "executable file not found in %PATH%") ∨
            (∃ p : String, e.Error = p ++ "executable file not found in $PATH")) →
        IsInstalled host mediainfoBinary = true) := by
  have key : ∀ e, host.Run [mediainfoBinary] = some e →
      (IsInstalled host mediainfoBinary = false ↔
        ((∃ p : String, e.Error = p ++ "no such file or directory") ∨
          (∃ p : String, e.Error = p ++ "executable file not found in %PATH%") ∨
          (∃ p : String, e.Error = p ++ "executable file not found in $PATH"))) := by
    intro e he
    simp only [← HasSuffix_iff]
    unfold IsInstalled
    rw [he]
    by_cases h : (HasSuffix e.Error "no such file or directory" ||
        HasSuffix e.Error "executable file not found in %PATH%" ||
        HasSuffix e.Error "executable file not found in $PATH") = true
    · have h' := h
      simp only [Bool.or_eq_true, or_assoc] at h'
      simp [h, h']
    · have h' := h
      simp only [Bool.or_eq_true, or_assoc] at h'
      simp [h, h']
  have hnone : host.Run [mediainfoBinary] = none → IsInstalled host mediainfoBinary = true := by
    intro hn
    unfold IsInstalled
    rw [hn]
  refine ⟨?_, hnone, ?_, ?_⟩
  · constructor
    · intro hf
      cases hr : host.Run [mediainfoBinary] with
      | none => rw [hnone hr] at hf; cases hf
      | some e => exact ⟨e, rfl, (key e hr).1 hf⟩
    · rintro ⟨e, he, hs⟩
      exact (key e he).2 hs
  · intro e he hs
    cases hi : IsInstalled host mediainfoBinary with
    | true => rfl
    | false => exact absurd ((key e he).1 hi) hs
  · intro e he _ hs
    cases hi : IsInstalled host mediainfoBinary with
    | true => rfl
    | false => exact absurd ((key e he).1 hi) hs

/-! ## The orchestration: `GetMediaInfo` -/

theorem GetMediaInfo_of_not_installed (host : Host) (mediainfoBinary fname outputType : String)
    (h : IsInstalled host mediainfoBinary = false) :
    GetMediaInfo host mediainfoBinary fname outputType =
      { spawned := [[mediainfoBinary]], ret := .ok ({}, some errMustInstall) } := by
  simp [GetMediaInfo, h]

theorem GetMediaInfo_of_output_error (host : Host) (mediainfoBinary fname outputType : String)
    (out : List UInt8) (e : GoError) (h : IsInstalled host mediainfoBinary = true)
    (hout : host.Output [mediainfoBinary, "--Output=JSON", "-f", fname] = (out, some e)) :
    GetMediaInfo host mediainfoBinary fname outputType =
      { spawned := [[mediainfoBinary], [mediainfoBinary, "--Output=JSON", "-f", fname]],
        ret := .ok ({}, some e) } := by
  simp [GetMediaInfo, h, hout]

theorem GetMediaInfo_of_unmarshal_error (host : Host)
    (mediainfoBinary fname outputType : String) (out : List UInt8) (info : MediaInfoJson)
    (e : GoError) (h : IsInstalled host mediainfoBinary = true)
    (hout : host.Output [mediainfoBinary, "--Output=JSON", "-f", fname] = (out, none))
    (hparse : host.Unmarshal out = (info, some e)) :
    GetMediaInfo host mediainfoBinary fname outputType =
      { spawned := [[mediainfoBinary], [mediainfoBinary, "--Output=JSON", "-f", fname]],
        ret := .ok ({}, some e) } := by
  simp [GetMediaInfo, h, hout, hparse]

theorem GetMediaInfo_of_parsed (host : Host) (mediainfoBinary fname outputType : String)
    (out : List UInt8) (info : MediaInfoJson) (h : IsInstalled host mediainfoBinary = true)
    (hout : host.Output [mediainfoBinary, "--Output=JSON", "-f", fname] = (out, none))
    (hparse : host.Unmarshal out = (info, none)) :
    GetMediaInfo host mediainfoBinary fname outputType =
      { spawned := [[mediainfoBinary], [mediainfoBinary, "--Output=JSON", "-f", fname]],
        ret := (IsMedia (classify info.Media.Track)).map fun ok =>
          if !ok then (classify info.Media.Track, some errInvalidMedia)
          else (classify info.Media.Track, none) } := by
  simp [GetMediaInfo, h, hout, hparse, classify]

/-- C6: when the availability probe reports the tool unavailable, `GetMediaInfo` returns the
error "Must install mediainfo" with a `MediaInfo` whose three sequences are empty, spawns
only the probe, and returns the same on every host with the same probe outcome, whatever
its analysis and its decoder do. -/
theorem GetMediaInfo_not_installed (host host' : Host)
    (mediainfoBinary fname outputType : String)
    (hprobe : host'.Run [mediainfoBinary] = host.Run [mediainfoBinary])
    (h : IsInstalled host mediainfoBinary = false) :
    (GetMediaInfo host mediainfoBinary fname outputType).ret =
        .ok ({ General := [], Video := [], Audio := [] }, some ⟨"Must install mediainfo"⟩) ∧
      (GetMediaInfo host mediainfoBinary fname outputType).spawned = [[mediainfoBinary]] ∧
      GetMediaInfo host' mediainfoBinary fname outputType =
        GetMediaInfo host mediainfoBinary fname outputType := by
  have h' : IsInstalled host' mediainfoBinary = false := by
    rw [← h]
    simp only [IsInstalled, hprobe]
  rw [GetMediaInfo_of_not_installed host _ _ _ h, GetMediaInfo_of_not_installed host' _ _ _ h']
  exact ⟨rfl, rfl, rfl⟩

/-- An instance of C6 on a host without the binary. -/
theorem GetMediaInfo_not_installed_witness :
    (GetMediaInfo hostAbsent "mediainfo" "a.mp4" "").ret =
        .ok ({ General := [], Video := [], Audio := [] }, some ⟨"Must install mediainfo"⟩) ∧
      (GetMediaInfo hostAbsent "mediainfo" "a.mp4" "").spawned = [["mediainfo"]] ∧
      GetMediaInfo
          { hostAbsent with
            Output := fun _ => ([], none),
            Unmarshal := fun _ =>
              ({ Media := { Track := [{ Type_ := "Video", Duration := "10.0" }] } }, none) }
          "mediainfo" "a.mp4" "" =
        GetMediaInfo hostAbsent "mediainfo" "a.mp4" "" :=
  GetMediaInfo_not_installed hostAbsent _ "mediainfo" "a.mp4" "" rfl (by decide)

/-- C7: with the tool available, `GetMediaInfo` stops at the first failing stage. If the
analysis fails with `e` it returns exactly `e`; if the analysis succeeds and decoding its
output fails with `e'` it returns exactly `e'`; both times with a `MediaInfo` whose three
sequences are empty. Hence whenever an error comes with a `MediaInfo` that is not empty,
the error is "The media file is invalid: no duration". -/
theorem GetMediaInfo_short_circuit (host : Host) (mediainfoBinary fname outputType : String)
    (h : IsInstalled host mediainfoBinary = true) :
    (∀ out e, host.Output [mediainfoBinary, "--Output=JSON", "-f", fname] = (out, some e) →
        (GetMediaInfo host mediainfoBinary fname outputType).ret =
          .ok ({ General := [], Video := [], Audio := [] }, some e)) ∧
      (∀ out info e', host.Output [mediainfoBinary, "--Output=JSON", "-f", fname] = (out, none) →
        host.Unmarshal out = (info, some e') →
        (GetMediaInfo host mediainfoBinary fname outputType).ret =
          .ok ({ General := [], Video := [], Audio := [] }, some e')) ∧
      (∀ m err, (GetMediaInfo host mediainfoBinary fname outputType).ret = .ok (m, some err) →
        m ≠ { General := [], Video := [], Audio := [] } →
        err = ⟨"The media file is invalid: no duration"⟩) := by
  refine ⟨?_, ?_, ?_⟩
  · intro out e hout
    rw [GetMediaInfo_of_output_error host _ _ _ out e h hout]
  · intro out info e' hout hparse
    rw [GetMediaInfo_of_unmarshal_error host _ _ _ out info e' h hout hparse]
  · intro m err hret hm
    rcases hout : host.Output [mediainfoBinary, "--Output=JSON", "-f", fname] with ⟨out, _ | e⟩
    · rcases hparse : host.Unmarshal out with ⟨info, _ | e'⟩
      · rw [GetMediaInfo_of_parsed host _ _ _ out info h hout hparse] at hret
        simp only at hret
        cases hm' : IsMedia (classify info.Media.Track) with
        | error p => rw [hm'] at hret; cases hret
        | ok b =>
          rw [hm'] at hret
          cases b
          · simp only [Except.map, Bool.not_false, if_true, Except.ok.injEq, Prod.mk.injEq,
              Option.some.injEq] at hret
            exact hret.2.symm
          · simp [Except.map] at hret
      · rw [GetMediaInfo_of_unmarshal_error host _ _ _ out info e' h hout hparse] at hret
        simp only [Except.ok.injEq, Prod.mk.injEq] at hret
        exact absurd hret.1.symm hm
    · rw [GetMediaInfo_of_output_error host _ _ _ out e h hout] at hret
      simp only [Except.ok.injEq, Prod.mk.injEq] at hret
      exact absurd hret.1.symm hm

/-- Two instances of C7: a failing analysis and an output that does not decode. -/
theorem GetMediaInfo_short_circuit_witness :
    (GetMediaInfo (hostFailing ⟨"exit status 1"⟩) "mediainfo" "a.mp4" "").ret =
        .ok ({ General := [], Video := [], Audio := [] }, some ⟨"exit status 1"⟩) ∧
      (GetMediaInfo (hostGarbled ⟨"unexpected end of JSON input"⟩) "mediainfo" "a.mp4" "").ret =
        .ok ({ General := [], Video := [], Audio := [] },
          some ⟨"unexpected end of JSON input"⟩) :=
  ⟨(GetMediaInfo_short_circuit (hostFailing ⟨"exit status 1"⟩) "mediainfo" "a.mp4" ""
      (by decide)).1 [] _ rfl,
    (GetMediaInfo_short_circuit (hostGarbled ⟨"unexpected end of JSON input"⟩) "mediainfo"
      "a.mp4" "" (by decide)).2.1 [] {} _ rfl rfl⟩

/-- C8: on a successful analysis whose report has at least one Video and one Audio track,
`GetMediaInfo` returns the classified partition of the whole track list, with the error "The
media file is invalid: no duration" if and only if the first Video track or the first Audio
track has an empty `Duration`, and with no error otherwise. -/
theorem GetMediaInfo_validates (host : Host) (mediainfoBinary fname outputType : String)
    (out : List UInt8) (info : MediaInfoJson) (v a : Track) (vs as : List Track)
    (h : IsInstalled host mediainfoBinary = true)
    (hout : host.Output [mediainfoBinary, "--Output=JSON", "-f", fname] = (out, none))
    (hparse : host.Unmarshal out = (info, none))
    (hv : (info.Media.Track.filter fun t => t.Type_ == "Video") = v :: vs)
    (ha : (info.Media.Track.filter fun t => t.Type_ == "Audio") = a :: as) :
    (GetMediaInfo host mediainfoBinary fname outputType).ret =
        .ok ({ General := info.Media.Track.filter fun t => t.Type_ == "General",
               Video := v :: vs, Audio := a :: as },
          if v.Duration = "" ∨ a.Duration = "" then
            some ⟨"The media file is invalid: no duration"⟩
          else none) ∧
      ((∃ m, (GetMediaInfo host mediainfoBinary fname outputType).ret =
            .ok (m, some ⟨"The media file is invalid: no duration"⟩)) ↔
        (v.Duration = "" ∨ a.Duration = "")) ∧
      ((∃ m, (GetMediaInfo host mediainfoBinary fname outputType).ret = .ok (m, none)) ↔
        ¬(v.Duration = "" ∨ a.Duration = "")) := by
  have hret : (GetMediaInfo host mediainfoBinary fname outputType).ret =
      .ok ({ General := info.Media.Track.filter fun t => t.Type_ == "General",
             Video := v :: vs, Audio := a :: as },
        if v.Duration = "" ∨ a.Duration = "" then
          some ⟨"The media file is invalid: no duration"⟩
        else none) := by
    rw [GetMediaInfo_of_parsed host _ _ _ out info h hout hparse]
    simp only [classify_eq, ofType, hv, ha, IsMedia_cons_video]
    by_cases hdv : v.Duration = ""
    · simp [hdv, Except.map, errInvalidMedia]
    · by_cases hda : a.Duration = ""
      · simp [hdv, hda, Except.map, errInvalidMedia]
      · simp [hdv, hda, Except.map]
  refine ⟨hret, ?_, ?_⟩
  · rw [hret]
    by_cases hc : v.Duration = "" ∨ a.Duration = ""
    · simp [hc]
    · simp [hc]
  · rw [hret]
    by_cases hc : v.Duration = "" ∨ a.Duration = ""
    · simp [hc]
    · simp [hc]

/-- Two instances of C8: both durations present, and an empty first Video `Duration`. -/
theorem GetMediaInfo_validates_witness :
    (GetMediaInfo
          (hostReporting
            [{ Type_ := "General" }, { Type_ := "Video", Duration := "10.0" },
              { Type_ := "Audio", Duration := "5.0" }])
          "mediainfo" "a.mp4" "").ret =
        .ok ({ General := [{ Type_ := "General" }],
               Video := [{ Type_ := "Video", Duration := "10.0" }],
               Audio := [{ Type_ := "Audio", Duration := "5.0" }] }, none) ∧
      (GetMediaInfo
          (hostReporting
            [{ Type_ := "Video", Duration := "" }, { Type_ := "Audio", Duration := "5.0" }])
          "mediainfo" "a.mp4" "").ret =
        .ok ({ General := [],
               Video := [{ Type_ := "Video", Duration := "" }],
               Audio := [{ Type_ := "Audio", Duration := "5.0" }] },
          some ⟨"The media file is invalid: no duration"⟩) :=
  ⟨(GetMediaInfo_validates
      (hostReporting
        [{ Type_ := "General" }, { Type_ := "Video", Duration := "10.0" },
          { Type_ := "Audio", Duration := "5.0" }])
      "mediainfo" "a.mp4" "" [] _ _ _ _ _ (by decide) rfl rfl rfl rfl).1,
    (GetMediaInfo_validates
      (hostReporting
        [{ Type_ := "Video", Duration := "" }, { Type_ := "Audio", Duration := "5.0" }])
      "mediainfo" "a.mp4" "" [] _ _ _ _ _ (by decide) rfl rfl rfl rfl).1⟩

/-- C3 fails on the code: for a report with one Video track of `Duration` "10.0" and no Audio
track, and for a report with a single General track, a successful analysis does not end
with the error "The media file is invalid: no duration": `GetMediaInfo` panics in `IsMedia`
with index 0 out of range for length 0 and returns nothing. -/
theorem GetMediaInfo_panics_without_audio_or_video :
    (GetMediaInfo (hostReporting [{ Type_ := "Video", Duration := "10.0" }])
          "mediainfo" "a.mp4" "").ret = .error (.indexOutOfRange 0 0) ∧
      (GetMediaInfo (hostReporting [{ Type_ := "General" }])
          "mediainfo" "notes.txt" "").ret = .error (.indexOutOfRange 0 0) :=
  ⟨rfl, rfl⟩

end Mediainfo
